import Mathlib

/-!
Verification of the OLM converter core (olm_parser.py, format_converters.py,
app.py) against its specification.  Text is modelled as `List Char`, raw byte
payloads as `List Nat`, and the encoding detector (chardet + decode) as an
arbitrary function `List Nat → List Char` passed as a parameter.
-/

namespace OLM

/-- Text values (Python `str`) are modelled as lists of characters. -/
abbrev Str := List Char

/-- Test that `hay` begins with `needle`. -/
def listStartsWith : Str → Str → Bool
  | [], _ => true
  | _ :: _, [] => false
  | a :: as, b :: bs => a == b && listStartsWith as bs

/-- Python's substring test `needle in hay`. -/
def containsSub (needle : Str) : Str → Bool
  | [] => needle.isEmpty
  | c :: rest => listStartsWith needle (c :: rest) || containsSub needle rest

/-- The `date_parsed` slot of a record: absent (`None`), a timestamp
(`datetime`, modelled as a `Nat`), or — after JSON serialization copies the
record — an ISO string. -/
inductive DateParsed where
  | absent : DateParsed
  | ts (t : Nat) : DateParsed
  | str (s : Str) : DateParsed
deriving DecidableEq, Repr

/-- The Message Record produced by `OLMParser` (the email dict of
`olm_parser.py`): `subject`, `from`, `to`, `cc`, `date`, `date_parsed`,
`body`, `attachments`. -/
structure EmailRecord where
  subject : Str
  from_ : Str
  to_ : Str
  cc : Str
  date : Str
  date_parsed : DateParsed
  body : Str
  attachments : List Str
deriving DecidableEq, Repr

/-- The all-empty record dict as initialised by `_parse_xml_message`. -/
def emptyRecord : EmailRecord :=
  { subject := [], from_ := [], to_ := [], cc := [], date := [],
    date_parsed := .absent, body := [], attachments := [] }

/-! ## MIME message parser (`OLMParser._parse_eml_file`) -/

/-- One part of a MIME message as seen by `msg.walk()`.  `payload` is the
result of `part.get_payload(decode=True)` as raw bytes: `none` when it raised
or returned `None`, `some b` otherwise. -/
structure MimePart where
  content_type : Str
  content_disposition : Str
  payload : Option (List Nat)
  filename : Option Str
deriving DecidableEq, Repr

/-- The body-candidate test on a part: declared content type is `text/plain`
and the disposition does not contain `attachment`
(olm_parser.py line 128). -/
def isBodyCandidate (p : MimePart) : Bool :=
  p.content_type == "text/plain".data &&
    !(containsSub "attachment".data p.content_disposition)

/-- The multipart body-extraction loop of `_parse_eml_file` (lines 122–137):
walks the parts in order and, for every body candidate whose payload is
present and non-empty, overwrites the accumulated body with that payload's
decoded text. -/
def extractBody (decode : List Nat → Str) : List MimePart → Str → Str
  | [], acc => acc
  | p :: rest, acc =>
    if isBodyCandidate p then
      match p.payload with
      | some b =>
        if b.isEmpty then extractBody decode rest acc
        else extractBody decode rest (decode b)
      | none => extractBody decode rest acc
    else extractBody decode rest acc

/-- Attachment collection of `_parse_eml_file` (lines 139–143): a part whose
disposition contains `attachment` and which carries a non-empty file name
contributes that name, in walk order.  (When the disposition contains
`attachment` the body-candidate branch is never taken, so the `elif` reduces
to this test.) -/
def collectAttachments (parts : List MimePart) : List Str :=
  parts.filterMap fun p =>
    if containsSub "attachment".data p.content_disposition then
      p.filename.bind fun n => if n.isEmpty then none else some n
    else none

/-- The content of a parsed MIME message: either multipart (walked part
list) or single-part (one payload).  -/
inductive EmlContent where
  | multipart (parts : List MimePart) : EmlContent
  | single (payload : Option (List Nat)) : EmlContent
deriving DecidableEq, Repr

/-- A parsed RFC-822 message as returned by `BytesParser`: each header is
`none` when absent, `dateParsedResult` is the outcome of
`email.utils.parsedate_to_datetime` on the date header. -/
structure EmlMessage where
  subject : Option Str
  from_ : Option Str
  to_ : Option Str
  cc : Option Str
  date : Option Str
  dateParsedResult : Option Nat
  content : EmlContent
deriving DecidableEq, Repr

/-- Model of `OLMParser._parse_eml_file` (lines 96–154): headers default to the empty
string — subject to the sentinel `(No Subject)` —, `date_parsed` is the
header parse result when a date header is present, and the body comes from
the multipart walk or the single payload, decoded by the encoding
detector. -/
def parseEmlFile (decode : List Nat → Str) (msg : EmlMessage) : EmailRecord :=
  let date := msg.date.getD []
  { subject := msg.subject.getD "(No Subject)".data
    from_ := msg.from_.getD []
    to_ := msg.to_.getD []
    cc := msg.cc.getD []
    date := date
    date_parsed :=
      if date.isEmpty then .absent
      else match msg.dateParsedResult with
        | some t => .ts t
        | none => .absent
    body :=
      match msg.content with
      | .multipart parts => extractBody decode parts []
      | .single payload =>
        match payload with
        | some b => if b.isEmpty then [] else decode b
        | none => []
    attachments :=
      match msg.content with
      | .multipart parts => collectAttachments parts
      | .single _ => [] }

/-- The payload a part contributes to the body-overwrite loop: present only
for body candidates with a non-`None`, non-empty payload. -/
def qualifyingPayload (p : MimePart) : Option (List Nat) :=
  if isBodyCandidate p then
    match p.payload with
    | some b => if b.isEmpty then none else some b
    | none => none
  else none

/-- The extraction loop folds the qualifying payloads left to right,
each overwriting the accumulator. -/
theorem extractBody_eq_foldl (decode : List Nat → Str) :
    ∀ (parts : List MimePart) (acc : Str),
      extractBody decode parts acc =
        (parts.filterMap qualifyingPayload).foldl (fun _ b => decode b) acc := by
  intro parts
  induction parts with
  | nil => intro acc; rfl
  | cons p rest ih =>
    intro acc
    by_cases hq : isBodyCandidate p
    · cases hp : p.payload with
      | none =>
        simp [extractBody, qualifyingPayload, hq, hp, List.filterMap_cons, ih]
      | some b =>
        by_cases hb : b.isEmpty
        · simp [extractBody, qualifyingPayload, hq, hp, hb,
            List.filterMap_cons, ih]
        · simp [extractBody, qualifyingPayload, hq, hp, hb,
            List.filterMap_cons, ih]
    · simp [extractBody, qualifyingPayload, hq, List.filterMap_cons, ih]

/-- C3 counterexample: a multipart message with two qualifying `text/plain`
non-attachment parts, carrying bytes 65 (`A`) and 66 (`B`); the record's
body is the decoded content of the SECOND part, not of the first. -/
theorem multipart_body_not_first_part :
    (parseEmlFile (fun bs => bs.map Char.ofNat)
      { subject := none, from_ := none, to_ := none, cc := none, date := none,
        dateParsedResult := none,
        content := .multipart
          [ { content_type := "text/plain".data, content_disposition := [],
              payload := some [65], filename := none },
            { content_type := "text/plain".data, content_disposition := [],
              payload := some [66], filename := none } ] }).body = "B".data ∧
    "B".data ≠ "A".data := by
  constructor
  · rfl
  · decide

/-- C3 as amended: in a multipart message the record's body is the decoded
payload of the LAST body candidate (plain-text, non-attachment part) whose
payload is present and non-empty; parts without such a payload leave the
body unchanged. -/
theorem multipart_body_is_last_qualifying (decode : List Nat → Str)
    (msg : EmlMessage) (parts : List MimePart) (l : List (List Nat))
    (bs : List Nat) (hc : msg.content = .multipart parts)
    (hl : parts.filterMap qualifyingPayload = l ++ [bs]) :
    (parseEmlFile decode msg).body = decode bs := by
  have hb : (parseEmlFile decode msg).body = extractBody decode parts [] := by
    simp [parseEmlFile, hc]
  rw [hb, extractBody_eq_foldl, hl, List.foldl_append]
  rfl

/-- Witness for the amended C3: on the two-part message above, the
qualifying payloads are `[65]` then `[66]` and the body decodes `[66]`. -/
theorem multipart_body_is_last_qualifying_witness :
    (parseEmlFile (fun bs => bs.map Char.ofNat)
      { subject := none, from_ := none, to_ := none, cc := none, date := none,
        dateParsedResult := none,
        content := .multipart
          [ { content_type := "text/plain".data, content_disposition := [],
              payload := some [65], filename := none },
            { content_type := "text/plain".data, content_disposition := [],
              payload := some [66], filename := none } ] }).body =
      (fun bs => bs.map Char.ofNat) [66] :=
  multipart_body_is_last_qualifying (fun bs => bs.map Char.ofNat) _ _
    [[65]] [66] rfl (by decide)

/-! ## Structured (XML) message parser (`OLMParser._parse_xml_message`) -/

/-- One node of the parsed XML tree, as visited by `root.iter()`:
a tag name and the node's text (`none` for `None`). -/
structure XmlNode where
  tag : Str
  text : Option Str
deriving DecidableEq, Repr

/-- The per-node assignment of `_parse_xml_message` (lines 172–184): if the
lowercased tag name contains `subject`/`from`/`to`/`date`/`body` (tested in
that order) and the node's text is truthy, that field is overwritten. -/
def xmlAssign (e : EmailRecord) (n : XmlNode) : EmailRecord :=
  match n.text with
  | none => e
  | some t =>
    if t.isEmpty then e
    else
      let tl := n.tag.map Char.toLower
      if containsSub "subject".data tl then { e with subject := t }
      else if containsSub "from".data tl then { e with from_ := t }
      else if containsSub "to".data tl then { e with to_ := t }
      else if containsSub "date".data tl then { e with date := t }
      else if containsSub "body".data tl then { e with body := t }
      else e

/-- Model of `OLMParser._parse_xml_message` (lines 156–189) on the flattened node
sequence: fold the assignments over an all-empty record and return it only
when subject or body is non-empty. -/
def parseXmlMessage (nodes : List XmlNode) : Option EmailRecord :=
  let e := nodes.foldl xmlAssign emptyRecord
  if e.subject.isEmpty && e.body.isEmpty then none else some e

/-! ## Message locator and tiers (`OLMParser._parse_emails`) -/

/-- A file of the extracted staging area, in filesystem traversal order,
classified by extension.  For `.eml` files, `none` stands for a read/parse
exception; for `.xml` files, `none` stands for an `ET.parse` failure. -/
inductive FSFile where
  | eml (msg : Option EmlMessage) : FSFile
  | xml (name : Str) (nodes : Option (List XmlNode)) : FSFile
  | txt (name : Str) (content : Str) : FSFile
  | other : FSFile
deriving DecidableEq, Repr

/-- The tier-1 result of one file: `_parse_eml_file` applied to every `.eml`
file that parses without an exception (lines 68–78). -/
def emlResult (decode : List Nat → Str) : FSFile → Option EmailRecord
  | .eml (some msg) => some (parseEmlFile decode msg)
  | _ => none

/-- The tier-2 result of one file: `_parse_xml_message` applied to every
`.xml` file whose lowercased name contains `message` (lines 81–90). -/
def xmlResult : FSFile → Option EmailRecord
  | .xml name (some nodes) =>
    if containsSub "message".data (name.map Char.toLower) then
      parseXmlMessage nodes
    else none
  | _ => none

/-- Append step `self.emails.append(email_data)` guarded by the per-file outcome. -/
def appendOpt (acc : List EmailRecord) : Option EmailRecord → List EmailRecord
  | some e => acc ++ [e]
  | none => acc

/-- The record synthesized by the tier-3 fallback for one text file
(lines 201–209). -/
def fallbackRecord (name content : Str) : EmailRecord :=
  { emptyRecord with subject := "Message from ".data ++ name, body := content }

/-- Model of `OLMParser._parse_alternative_formats` (lines 191–211): every `.txt`
file whose content exceeds 50 characters contributes one fallback record. -/
def parseAlternativeFormats (files : List FSFile) : List EmailRecord :=
  files.foldl
    (fun acc f =>
      match f with
      | .txt name content =>
        if 50 < content.length then acc ++ [fallbackRecord name content]
        else acc
      | _ => acc) []

/-- Tiers 1 and 2 of `_parse_emails` (lines 62–90): a complete pass
appending every `.eml` record, then a second complete pass appending every
matching `.xml` record. -/
def parseEmailsTier12 (decode : List Nat → Str) (files : List FSFile) :
    List EmailRecord :=
  let emails1 := files.foldl (fun acc f => appendOpt acc (emlResult decode f)) []
  files.foldl (fun acc f => appendOpt acc (xmlResult f)) emails1

/-- Model of `OLMParser._parse_emails` (lines 62–94): tiers 1–2, then the tier-3
fallback only when they produced nothing. -/
def parseEmails (decode : List Nat → Str) (files : List FSFile) :
    List EmailRecord :=
  let emails := parseEmailsTier12 decode files
  if emails.isEmpty then parseAlternativeFormats files else emails

/-- Appending per-file results by a left fold equals filterMap. -/
theorem foldl_appendOpt_eq_filterMap (g : FSFile → Option EmailRecord) :
    ∀ (files : List FSFile) (init : List EmailRecord),
      files.foldl (fun acc f => appendOpt acc (g f)) init =
        init ++ files.filterMap g := by
  intro files
  induction files with
  | nil => intro init; simp
  | cons f rest ih =>
    intro init
    rw [List.foldl_cons, ih]
    cases hg : g f with
    | none => simp [appendOpt, hg, List.filterMap_cons]
    | some e => simp [appendOpt, hg, List.filterMap_cons]

/-- C10: in the sequence returned by the parsing stage, every record from a
tier-1 `.eml` file precedes every record from a tier-2 `.xml` file, because
the two tiers are scanned in two separate complete passes; within each tier
the order is the filesystem traversal order of the file list. -/
theorem tier1_records_precede_tier2 (decode : List Nat → Str)
    (files : List FSFile) :
    parseEmailsTier12 decode files =
      files.filterMap (emlResult decode) ++ files.filterMap xmlResult := by
  unfold parseEmailsTier12
  rw [foldl_appendOpt_eq_filterMap, foldl_appendOpt_eq_filterMap]
  simp

/-- C4: the tier-3 fallback runs exactly when tiers 1–2 produced zero
records, and for an archive holding one cleanly parsing `.eml` file and one
`.txt` file longer than 50 characters the fallback does not run and parse
returns exactly the one tier-1 record. -/
theorem fallback_iff_no_tier12_records (decode : List Nat → Str) :
    (∀ files : List FSFile,
      (parseEmailsTier12 decode files = [] →
        parseEmails decode files = parseAlternativeFormats files) ∧
      (parseEmailsTier12 decode files ≠ [] →
        parseEmails decode files = parseEmailsTier12 decode files)) ∧
    (∀ (msg : EmlMessage) (name content : Str), 50 < content.length →
      parseEmails decode [.eml (some msg), .txt name content] =
        [parseEmlFile decode msg]) := by
  constructor
  · intro files
    constructor
    · intro h
      simp [parseEmails, h]
    · intro h
      simp [parseEmails, List.isEmpty_iff, h]
  · intro msg name content _
    have h12 : parseEmailsTier12 decode [.eml (some msg), .txt name content] =
        [parseEmlFile decode msg] := by
      rw [tier1_records_precede_tier2]
      simp [emlResult, xmlResult, List.filterMap_cons]
    simp [parseEmails, h12]

/-- Witness for C4: with the identity-style decoder, a parsed `.eml`
message and an 80-character text file, parse returns exactly the one
tier-1 record. -/
theorem fallback_iff_no_tier12_records_witness :
    parseEmails (fun bs => bs.map Char.ofNat)
      [.eml (some { subject := none, from_ := none, to_ := none, cc := none,
                    date := none, dateParsedResult := none,
                    content := .single none }),
       .txt "notes.txt".data (List.replicate 80 'a')] =
      [parseEmlFile (fun bs => bs.map Char.ofNat)
        { subject := none, from_ := none, to_ := none, cc := none,
          date := none, dateParsedResult := none,
          content := .single none }] :=
  (fallback_iff_no_tier12_records (fun bs => bs.map Char.ofNat)).2
    _ _ _ (by simp)

/-! ## Subject sentinel -/

/-- C8 counterexample: an archive whose only message is a `message1.xml`
file carrying a `body` node and no subject node yields, through the parsing
stage, a record whose subject is the empty string, not `(No Subject)`. -/
theorem xml_record_subject_empty_not_sentinel :
    (parseEmails (fun _ => [])
      [.xml "message1.xml".data
        (some [{ tag := "body".data, text := some "hello".data }])]).map
      EmailRecord.subject = [[]] ∧
    ([] : Str) ≠ "(No Subject)".data := by
  constructor
  · rfl
  · decide

/-- C8 as amended: records produced by the tier-1 MIME parser default the
subject to the sentinel `(No Subject)` when the message carries no subject
header; the tier-2 markup parser instead leaves the subject empty (such a
record is returned whenever the body is non-empty), and the tier-3 fallback
synthesizes a subject from the file name. -/
theorem mime_subject_defaults_to_sentinel (decode : List Nat → Str)
    (msg : EmlMessage) (h : msg.subject = none) :
    (parseEmlFile decode msg).subject = "(No Subject)".data := by
  simp [parseEmlFile, h]

/-- Witness for the amended C8: a concrete header-less message gets the
sentinel subject. -/
theorem mime_subject_defaults_to_sentinel_witness :
    (parseEmlFile (fun _ => [])
      { subject := none, from_ := none, to_ := none, cc := none,
        date := none, dateParsedResult := none,
        content := .single none }).subject = "(No Subject)".data :=
  mime_subject_defaults_to_sentinel (fun _ => []) _ rfl

/-! ## Tabular (CSV) encoder (`convert_to_csv`, format_converters.py
lines 18–42) and the csv module's minimal-quoting writer. -/

/-- The body preparation of the CSV row:
`.replace('\n', ' ').replace('\r', '')` — every newline becomes a space and
every carriage return is dropped. -/
def collapseBody (s : Str) : Str :=
  (s.map fun c => if c == '\n' then ' ' else c).filter fun c => c != '\r'

/-- The CSV header row. -/
def csvHeader : List Str :=
  ["Date".data, "From".data, "To".data, "CC".data, "Subject".data,
   "Body".data, "Attachments".data]

/-- The raw field values of one record's CSV row, in header order;
attachments are joined with a comma-space separator. -/
def csvRecordFields (e : EmailRecord) : List Str :=
  [e.date, e.from_, e.to_, e.cc, e.subject, collapseBody e.body,
   List.intercalate ", ".data e.attachments]

/-- Model of `convert_to_csv`: the header row followed by exactly one data row per
record, in order. -/
def convert_to_csv (emails : List EmailRecord) : List (List Str) :=
  csvHeader :: emails.map csvRecordFields

/-- The csv writer's minimal-quoting trigger: a field is quoted when it
contains the delimiter, the quote character, or a line-terminator
character. -/
def needsQuoting (s : Str) : Bool :=
  s.any fun c => c == ',' || c == '"' || c == '\n' || c == '\r'

/-- Doubling of embedded quote characters inside a quoted field. -/
def escapeQuotes : Str → Str
  | [] => []
  | c :: rest =>
    if c = '"' then '"' :: '"' :: escapeQuotes rest
    else c :: escapeQuotes rest

/-- A field as the csv writer serializes it under minimal quoting. -/
def quoteField (s : Str) : Str :=
  if needsQuoting s then '"' :: (escapeQuotes s ++ ['"']) else s

/-- Reading back the content of a quoted field (the text after the opening
quote): a doubled quote yields one quote, the closing quote ends the field,
and anything after a lone closing quote is invalid. -/
def unquoteAux : Str → Option Str
  | [] => none
  | c :: rest =>
    if c = '"' then
      match rest with
      | [] => some []
      | d :: rest2 =>
        if d = '"' then (unquoteAux rest2).map (fun t => '"' :: t) else none
    else (unquoteAux rest).map (fun t => c :: t)

/-- Re-parsing one serialized CSV field under the standard quoting rules. -/
def parseField (s : Str) : Option Str :=
  match s with
  | [] => some []
  | c :: rest => if c = '"' then unquoteAux rest else some (c :: rest)

/-- Reading back an escaped field body followed by the closing quote
recovers the original text. -/
theorem unquoteAux_escapeQuotes (s : Str) :
    unquoteAux (escapeQuotes s ++ ['"']) = some s := by
  induction s with
  | nil => rfl
  | cons c rest ih =>
    by_cases hc : c = '"'
    · subst hc
      simp [escapeQuotes, unquoteAux, ih]
    · have he : escapeQuotes (c :: rest) = c :: escapeQuotes rest := by
        rw [escapeQuotes.eq_def]
        simp [hc]
      rw [he, List.cons_append, unquoteAux.eq_def]
      simp [hc, ih]

/-- Serialize-then-parse is the identity on every field value. -/
theorem parseField_quoteField (s : Str) : parseField (quoteField s) = some s := by
  by_cases hq : needsQuoting s
  · simp [quoteField, hq, parseField, unquoteAux_escapeQuotes]
  · have hnq : needsQuoting s = false := by
      simpa using hq
    cases s with
    | nil => simp [quoteField, parseField, needsQuoting]
    | cons c rest =>
      have hc : ¬(c = '"') := by
        intro hc
        subst hc
        simp [needsQuoting] at hnq
      simp [quoteField, hnq, parseField, hc]

/-- The collapsed body contains no raw newline. -/
theorem collapseBody_no_newline (s : Str) : ¬ ('\n' ∈ collapseBody s) := by
  intro h
  simp only [collapseBody, List.mem_filter, List.mem_map] at h
  obtain ⟨⟨c, _, hc⟩, _⟩ := h
  by_cases h0 : c = '\n'
  · subst h0
    simp at hc
  · simp [h0] at hc

/-- C6: for a record whose body contains a newline and a comma, the CSV
encoder emits exactly one data row, that row's Body field contains no raw
newline, and the serialized Attachments field re-parses to the same joined
value under the standard quoting rules. -/
theorem csv_single_row_body_collapsed (e : EmailRecord)
    (_hn : '\n' ∈ e.body) (_hc : ',' ∈ e.body) :
    convert_to_csv [e] = [csvHeader, csvRecordFields e] ∧
    ¬ ('\n' ∈ collapseBody e.body) ∧
    parseField (quoteField (List.intercalate ", ".data e.attachments)) =
      some (List.intercalate ", ".data e.attachments) := by
  refine ⟨rfl, collapseBody_no_newline e.body, parseField_quoteField _⟩

/-- A sample record with body `a,\nb` and a comma-bearing attachment
name. -/
def csvSampleRecord : EmailRecord :=
  { emptyRecord with body := "a,\nb".data, attachments := ["x,y.pdf".data] }

/-- Witness for C6: the sample record yields the header plus exactly one
data row. -/
theorem csv_single_row_body_collapsed_witness :
    convert_to_csv [csvSampleRecord] =
      [csvHeader, csvRecordFields csvSampleRecord] :=
  (csv_single_row_body_collapsed csvSampleRecord (by decide) (by decide)).1

/-! ## Structured-data (JSON) encoder (`convert_to_json`,
format_converters.py lines 87–108) -/

/-- The rendering of a parsed date as an ISO string
(`datetime.isoformat`). -/
def isoformat (t : Nat) : Str := Nat.toDigits 10 t

/-- The per-record copy made by `convert_to_json`: `email.copy()` followed
by replacing a truthy `date_parsed` with its ISO string; every other field
is carried over unchanged. -/
def serializeEmail (e : EmailRecord) : EmailRecord :=
  { e with
    date_parsed :=
      match e.date_parsed with
      | .ts t => .str (isoformat t)
      | d => d }

/-- The JSON document written by `convert_to_json`: export timestamp, total
count, and the serialized record sequence. -/
structure JsonEnvelope where
  export_date : Str
  total_emails : Nat
  emails : List EmailRecord
deriving DecidableEq, Repr

/-- Model of `convert_to_json` (lines 87–108), with the export timestamp passed in
by the caller. -/
def convert_to_json (now : Str) (emails : List EmailRecord) : JsonEnvelope :=
  { export_date := now,
    total_emails := emails.length,
    emails := emails.map serializeEmail }

/-- C5: encoding a record sequence to JSON and reading the document back
reproduces `subject`, `from`, `to`, `cc`, `body` and `attachments` of every
record in the same order, and the envelope's `total_emails` equals the
number of records. -/
theorem json_roundtrip_preserves_fields (now : Str)
    (emails : List EmailRecord) :
    (convert_to_json now emails).total_emails = emails.length ∧
    (convert_to_json now emails).emails.map EmailRecord.subject =
      emails.map EmailRecord.subject ∧
    (convert_to_json now emails).emails.map EmailRecord.from_ =
      emails.map EmailRecord.from_ ∧
    (convert_to_json now emails).emails.map EmailRecord.to_ =
      emails.map EmailRecord.to_ ∧
    (convert_to_json now emails).emails.map EmailRecord.cc =
      emails.map EmailRecord.cc ∧
    (convert_to_json now emails).emails.map EmailRecord.body =
      emails.map EmailRecord.body ∧
    (convert_to_json now emails).emails.map EmailRecord.attachments =
      emails.map EmailRecord.attachments := by
  refine ⟨rfl, ?_, ?_, ?_, ?_, ?_, ?_⟩ <;>
    simp [convert_to_json, List.map_map, Function.comp, serializeEmail]

/-! ## Encoders leave the record sequence untouched
(`convert_to_csv` lines 30–42, `convert_to_json` lines 93–99).

Record dicts live in a heap (addresses are indices); the Python list handed
to an encoder is a list of addresses.  The only encoder that touches the
heap is the JSON one, which allocates a mutated COPY of every record; the
CSV, TXT and PDF encoders only read. -/

/-- The requested output formats dispatched by `process_olm_file`. -/
inductive OutputFormat where
  | csv : OutputFormat
  | txt : OutputFormat
  | json : OutputFormat
  | pdf : OutputFormat
deriving DecidableEq, Repr

/-- The heap of record dicts; an address is an index into it. -/
abbrev Heap := List EmailRecord

/-- The record sequence an encoder traverses: each address dereferenced in
order. -/
def recordsOf (h : Heap) (addrs : List Nat) : List EmailRecord :=
  addrs.filterMap fun a => h.get? a

/-- The heap after one encoder runs.  `convert_to_json` allocates one
mutated copy per record (`email.copy()` then the `date_parsed` rewrite);
`convert_to_csv`, `convert_to_txt` and `convert_to_pdf` contain no store to
any record and leave the heap as is. -/
def encoderHeapEffect : OutputFormat → Heap → List Nat → Heap
  | .json, h, addrs => h ++ (recordsOf h addrs).map serializeEmail
  | .csv, h, _ => h
  | .txt, h, _ => h
  | .pdf, h, _ => h

/-- C9: running any encoder mutates no existing record (every address that
was valid before still dereferences to the same record), leaves the
traversed record sequence — order included — unchanged, and therefore has
no effect on the output any other encoder computes from that sequence. -/
theorem encoders_do_not_mutate_records (fmt : OutputFormat) (h : Heap)
    (addrs : List Nat) (hv : ∀ a ∈ addrs, a < h.length) :
    (∀ a, a < h.length → (encoderHeapEffect fmt h addrs).get? a = h.get? a) ∧
    recordsOf (encoderHeapEffect fmt h addrs) addrs = recordsOf h addrs ∧
    convert_to_csv (recordsOf (encoderHeapEffect fmt h addrs) addrs) =
      convert_to_csv (recordsOf h addrs) ∧
    (∀ now, convert_to_json now (recordsOf (encoderHeapEffect fmt h addrs) addrs) =
      convert_to_json now (recordsOf h addrs)) := by
  have hpre : ∀ a, a < h.length →
      (encoderHeapEffect fmt h addrs).get? a = h.get? a := by
    intro a ha
    cases fmt <;> simp [encoderHeapEffect, List.getElem?_append_left ha]
  have hrec : recordsOf (encoderHeapEffect fmt h addrs) addrs =
      recordsOf h addrs := by
    unfold recordsOf
    apply List.filterMap_congr
    intro a ha
    exact hpre a (hv a ha)
  exact ⟨hpre, hrec, by rw [hrec], fun now => by rw [hrec]⟩

/-- Witness for C9: a one-record heap traversed through address 0 survives
the JSON encoder unchanged. -/
theorem encoders_do_not_mutate_records_witness :
    recordsOf (encoderHeapEffect .json [emptyRecord] [0]) [0] =
      recordsOf [emptyRecord] [0] :=
  (encoders_do_not_mutate_records .json [emptyRecord] [0] (by decide)).2.1

/-! ## Job-level staging-directory cleanup (`process_olm_file`,
app.py lines 60–139) -/

/-- The outcome of `parser.parse()` as observed by the job: the record list
it returned, or an exception. -/
inductive ParseOutcome where
  | ok (emails : List EmailRecord) : ParseOutcome
  | raises : ParseOutcome
deriving DecidableEq, Repr

/-- What one run of `process_olm_file` leaves behind: whether the final
status is the error status, whether `parser.cleanup()` ran (deleting the
staging directory), and whether the uploaded file was unlinked. -/
structure JobResult where
  statusError : Bool
  tempDirDeleted : Bool
  uploadDeleted : Bool
deriving DecidableEq, Repr

/-- Model of `process_olm_file` (app.py lines 60–139), abstracted over the parse
outcome.  On an exception the `except` block sets the error status and
unlinks the upload; when zero records come back the function returns right
after setting the error status; only the success path reaches
`parser.cleanup()`. -/
def process_olm_file (outcome : ParseOutcome) : JobResult :=
  match outcome with
  | .raises =>
    { statusError := true, tempDirDeleted := false, uploadDeleted := true }
  | .ok emails =>
    if emails.isEmpty then
      { statusError := true, tempDirDeleted := false, uploadDeleted := false }
    else
      { statusError := false, tempDirDeleted := true, uploadDeleted := true }

/-- C2 (evaluation at the failing inputs): the staging directory survives
the zero-record exit and the exception exit of a conversion job; only the
success exit deletes it. -/
theorem staging_dir_leaks_on_empty_and_error :
    (process_olm_file (.ok [])).tempDirDeleted = false ∧
    (process_olm_file .raises).tempDirDeleted = false ∧
    (process_olm_file (.ok [emptyRecord])).tempDirDeleted = true := by
  refine ⟨rfl, rfl, rfl⟩

/-! ## The `md` output format (app.py lines 20–26 and 109–110) -/

/-- Modelled from the source: the converter functions that
format_converters.py defines. -/
def formatConvertersDefined : List Str :=
  ["convert_to_csv".data, "convert_to_txt".data, "convert_to_json".data,
   "convert_to_pdf".data]

/-- Modelled from the source: the names app.py imports from
format_converters (lines 20–26). -/
def appImportedConverters : List Str :=
  ["convert_to_csv".data, "convert_to_txt".data, "convert_to_json".data,
   "convert_to_pdf".data, "convert_to_md".data]

/-- C1 (evaluation at the failing input): app.py imports and dispatches
`convert_to_md` for the `md` format, but format_converters.py defines no
such function, so no markup encoder exists and the import itself cannot
succeed. -/
theorem convert_to_md_not_defined :
    "convert_to_md".data ∈ appImportedConverters ∧
    "convert_to_md".data ∉ formatConvertersDefined := by
  decide

/-! ## Paginated-document (PDF) encoder: body truncation
(`convert_to_pdf`, format_converters.py lines 195–198). -/

/-- The marker appended by `convert_to_pdf` when a body is truncated. -/
def truncationMarker : Str := "\n\n[... Content truncated for PDF ...]".data

/-- Body preparation in `convert_to_pdf`: bodies longer than 5000 characters
are cut to their first 5000 characters and the truncation marker is
appended. -/
def pdfBody (body : Str) : Str :=
  if 5000 < body.length then body.take 5000 ++ truncationMarker else body

/-- C7: in the PDF encoder, a 6000-character body is truncated to its first
5000 characters plus the truncation marker, a 4000-character body is written
unchanged, and quantified over every record, truncation happens exactly when
the body length exceeds 5000 characters. -/
theorem pdf_truncation_at_5000 (e : EmailRecord) :
    (e.body.length = 6000 →
      pdfBody e.body = e.body.take 5000 ++ truncationMarker) ∧
    (e.body.length = 4000 → pdfBody e.body = e.body) ∧
    (5000 < e.body.length →
      pdfBody e.body = e.body.take 5000 ++ truncationMarker) ∧
    (e.body.length ≤ 5000 → pdfBody e.body = e.body) := by
  refine ⟨fun h => ?_, fun h => ?_, fun h => ?_, fun h => ?_⟩
  · simp [pdfBody, h]
  · simp [pdfBody, h]
  · simp [pdfBody, h]
  · simp [pdfBody, Nat.not_lt.mpr h]

/-- Witness for C7: a concrete 6000-character body is truncated. -/
theorem pdf_truncation_at_5000_witness :
    pdfBody (List.replicate 6000 'a') =
      (List.replicate 6000 'a').take 5000 ++ truncationMarker :=
  (pdf_truncation_at_5000 { emptyRecord with body := List.replicate 6000 'a' }).1
    (List.length_replicate 6000 'a')

end OLM
